import Mathlib

/-!
Verification of the policy-governed query mediation pipeline and the
self-correcting policy synthesis loop of the `permission_control` package.

The definitions below are a shallow embedding of the Python sources:

* `src/permission_control/data/permission_controller.py`
  (`check_query`, `_get_user_attributes`, `_get_policy`, `clear_cache`,
  the module-level caches `_employee_cache` / `_policy_cache`);
* `src/permission_control/data/policy_manager.py`
  (`_generate_rego_with_self_correction`, `_run_verification_tests`,
  `update_nl_policy`, `_save_raw_file_unlocked`, `_save_raw_file`);
* `src/permission_control/api/policy_routes.py`
  (`create_policy`, `update_policy`, `upload_file`).

External effects (the LLM oracle, the OPA evaluator, the file system) are
modelled by explicit outcome parameters: a record field holds what the
corresponding call returned (or the exception it raised) for the request
under consideration, and the embedded control flow consumes those outcomes
exactly as the Python control flow does.  Python exceptions are `Except`
errors; `None` is `Option.none`; a Python `dict` whose only relevant
observations are key lookup and emptiness is an association list.
-/

/-! ## Core data model -/

/-- One `{op, val}` operator object of the AST-style condition lists produced
by the intent parser (`_parse_query_to_json`). -/
structure CondItem where
  op : String
  val : String
  deriving Repr, DecidableEq

/-- The structured intent built from the LLM reply in
`_parse_query_to_json`: `tables`, `columns`, `conditions`, `query_type`
(`permission_controller.py`, prompt contract and `json.loads` result). -/
structure QueryIntent where
  tables : List String
  columns : List String
  conditions : List (String × List CondItem)
  query_type : String
  deriving Repr, DecidableEq

/-- One record of a tenant's `employees.jsonl` user table: `user_id`,
`user_role` and the free-form attribute map. -/
structure UserInfo where
  user_id : String
  user_role : String
  attributes : List (String × String)
  deriving Repr, DecidableEq

/-- The evaluator's reply as `check_query` consumes it.  `allowed?` is
`none` when the reply lacks the `allowed` field (the code raises
`ValueError` in that case); `row_constraints` is the constraint dict, whose
only observations in the mediation code are emptiness (`bool(...)`) and the
raw payload; `reason?` is `none` when the reply has no `reason` key. -/
structure OpaResult where
  allowed? : Option Bool
  allowed_columns : List String
  row_constraints : List (String × String)
  reason? : Option String
  deriving Repr, DecidableEq

/-- The terminal outcome of `check_query`: the `decision` field of the
returned dict together with the payload that accompanies each kind. -/
inductive Decision where
  | DENY (reason : String)
  | ALLOW (rewritten_query : String)
  | REWRITE (rewritten_query : String)
  deriving Repr, DecidableEq

/-- The `decision` string of the returned dict. -/
def Decision.kind : Decision → String
  | .DENY _ => "DENY"
  | .ALLOW _ => "ALLOW"
  | .REWRITE _ => "REWRITE"

/-- Whether a decision is a denial. -/
def Decision.isDeny : Decision → Bool
  | .DENY _ => true
  | _ => false

/-- Python `set(xs) == set(ys)` on string lists: mutual membership. -/
def sameSet (xs ys : List String) : Bool :=
  xs.all (fun x => ys.contains x) && ys.all (fun y => xs.contains y)

/-- The `needs_rewrite` predicate of `check_query` (lines 118–121):
`set(allowed_columns) != set(requested_columns) or bool(row_constraints)`. -/
def needs_rewrite (allowed_columns requested_columns : List String)
    (row_constraints : List (String × String)) : Bool :=
  !sameSet allowed_columns requested_columns || !row_constraints.isEmpty

/-! ## The artifact store and the read cache

`_get_user_attributes` reads `employees.jsonl` line by line: blank lines
are skipped, every other line goes through `json.loads` and a `user_id`
projection, and any exception on the way aborts the whole load (the
`except` branch stores `{}`).  A line is therefore modelled by what the
loader can observe of it: blank, a well-formed record, or a line whose
`json.loads`/`data["user_id"]` raises. -/

/-- One line of a tenant's `employees.jsonl`, as seen by the loader. -/
inductive Line where
  | blank
  | record (user_id : String) (rec : UserInfo)
  | bad
  deriving Repr, DecidableEq

/-- The loop body of `_get_user_attributes`' file read: fold the lines into
`employee_map`, later lines overwriting earlier ones
(`employee_map[data["user_id"]] = data`); `none` when some line raises. -/
def buildEmployeeMap : List Line → List (String × UserInfo) →
    Option (List (String × UserInfo))
  | [], acc => some acc
  | .blank :: rest, acc => buildEmployeeMap rest acc
  | .bad :: _, _ => none
  | .record uid rec :: rest, acc => buildEmployeeMap rest ((uid, rec) :: acc)

/-- The per-tenant artifact directory (`data/policy_list/<policy_id>/`) as
the two readers of `permission_controller.py` observe it: `none` models a
`FileNotFoundError` or any other IO error on open/read. -/
structure ArtifactFiles where
  employeeFile : String → Option (List Line)
  policyFile : String → Option String

/-- The module-level caches of `permission_controller.py`:
`_employee_cache : policy_id → user map` and
`_policy_cache : policy_id → rego text`. -/
structure CacheState where
  employee_cache : List (String × List (String × UserInfo))
  policy_cache : List (String × String)
  deriving Repr, DecidableEq

/-- The cache state at process start: both maps empty. -/
def CacheState.empty : CacheState := ⟨[], []⟩

/-- `_get_user_attributes`: on a cache miss, load `employees.jsonl` —
`FileNotFoundError` and parse errors both store the `{}` sentinel — then
look the user up in the now-resolved cache entry.  Returns the updated
cache and `_employee_cache.get(policy_id, {}).get(user_id)`. -/
def get_user_attributes (fs : ArtifactFiles) (st : CacheState)
    (policy_id user_id : String) : CacheState × Option UserInfo :=
  let st' :=
    if (st.employee_cache.lookup policy_id).isSome then st
    else
      let employee_map :=
        match fs.employeeFile policy_id with
        | none => ([] : List (String × UserInfo))
        | some lines => (buildEmployeeMap lines []).getD []
      { st with employee_cache := (policy_id, employee_map) :: st.employee_cache }
  (st', ((st'.employee_cache.lookup policy_id).getD []).lookup user_id)

/-- `_get_policy`: on a cache miss, read `policy.rego` — any read failure
stores the `""` sentinel — and return the cached string. -/
def get_policy (fs : ArtifactFiles) (st : CacheState) (policy_id : String) :
    CacheState × String :=
  let st' :=
    if (st.policy_cache.lookup policy_id).isSome then st
    else
      { st with policy_cache :=
          (policy_id, (fs.policyFile policy_id).getD "") :: st.policy_cache }
  (st', (st'.policy_cache.lookup policy_id).getD "")

/-- `clear_cache`: delete the tenant's entry from both caches. -/
def clear_cache (st : CacheState) (policy_id : String) : CacheState :=
  { employee_cache := st.employee_cache.filter (fun e => e.1 ≠ policy_id),
    policy_cache := st.policy_cache.filter (fun e => e.1 ≠ policy_id) }

/-! ## The mediation pipeline (`check_query`) -/

/-- What the two LLM helpers and the OPA client returned (or raised) for
the request being mediated: the outcome of `_parse_query_to_json`, of
`opa_client.evaluate_policy`, and of `_rewrite_query_with_llm`. -/
structure OracleEnv where
  parseResult : Except String QueryIntent
  opaOutcome : Except String OpaResult
  rewriteOutcome : Except String String

/-- An external call made by `check_query`: the intent-parsing LLM call,
the OPA evaluation, and the rewrite LLM call. -/
inductive ExtCall where
  | parseLLM
  | opaEval
  | rewriteLLM
  deriving Repr, DecidableEq

/-- `PermissionController.check_query` (`permission_controller.py`,
lines 40–147): resolve the user via the cache, parse the query, fetch the
policy via the cache, evaluate, and synthesize the decision, every failure
short-circuiting to a `DENY`.  Returns the cache state after the call, the
decision, and the list of external (oracle/evaluator) calls made. -/
def check_query (fs : ArtifactFiles) (ora : OracleEnv) (st : CacheState)
    (policy_id user_id query : String) :
    CacheState × Decision × List ExtCall :=
  let r1 := get_user_attributes fs st policy_id user_id
  match r1.2 with
  | none => (r1.1, .DENY "User or Policy ID not found.", [])
  | some _user_info =>
    match ora.parseResult with
    | .error e => (r1.1, .DENY ("LLM parsing failed: " ++ e), [.parseLLM])
    | .ok parsed_query_request =>
      let r2 := get_policy fs r1.1 policy_id
      if r2.2 = "" then
        (r2.1, .DENY "Policy file not found.", [.parseLLM])
      else
        match ora.opaOutcome with
        | .error e =>
          (r2.1, .DENY ("OPA evaluation failed: " ++ e), [.parseLLM, .opaEval])
        | .ok opa_result =>
          match opa_result.allowed? with
          | none =>
            (r2.1, .DENY "OPA evaluation failed: OPA anwser doesn't contain 'allowed' field",
              [.parseLLM, .opaEval])
          | some allowed =>
            if !allowed then
              (r2.1, .DENY (opa_result.reason?.getD "Access denied by policy."),
                [.parseLLM, .opaEval])
            else
              if !needs_rewrite opa_result.allowed_columns
                  parsed_query_request.columns opa_result.row_constraints then
                (r2.1, .ALLOW query, [.parseLLM, .opaEval])
              else
                match ora.rewriteOutcome with
                | .ok rewritten_query =>
                  (r2.1, .REWRITE rewritten_query, [.parseLLM, .opaEval, .rewriteLLM])
                | .error e =>
                  (r2.1, .DENY ("Query rewrite failed: " ++ e),
                    [.parseLLM, .opaEval, .rewriteLLM])

/-- The decision component of a `check_query` call. -/
def mediationDecision (fs : ArtifactFiles) (ora : OracleEnv) (st : CacheState)
    (policy_id user_id query : String) : Decision :=
  (check_query fs ora st policy_id user_id query).2.1

/-- The external calls made during a `check_query` call. -/
def mediationCalls (fs : ArtifactFiles) (ora : OracleEnv) (st : CacheState)
    (policy_id user_id query : String) : List ExtCall :=
  (check_query fs ora st policy_id user_id query).2.2

/-! ## Synthesis-time verification (`_run_verification_tests`) -/

/-- One synthetic test case generated by `_llm_generate_test_cases`:
`description`, `user_role`, `user_id`, `mock_user_attributes`,
`query_columns`, `expected_decision` (`policy_manager.py`). -/
structure TestCase where
  description : String
  user_role : String
  user_id : String
  mock_user_attributes : List (String × String)
  query_columns : List String
  expected_decision : String
  deriving Repr, DecidableEq

/-- The ALLOW / REWRITE / DENY classification computed inside
`_run_verification_tests` (`policy_manager.py`, lines 257–265):
`DENY` unless `allowed`; `ALLOW` when the verdict's `row_constraints` are
empty/missing and `allowed_columns` is non-empty; `REWRITE` otherwise. -/
def verification_actual_decision (opa_res : OpaResult) : String :=
  if opa_res.allowed?.getD false then
    if opa_res.row_constraints.isEmpty && decide (0 < opa_res.allowed_columns.length) then
      "ALLOW"
    else
      "REWRITE"
  else "DENY"

/-- The per-case body of `_run_verification_tests`' loop: `none` when the
case passes (`pass_count += 1`), `some msg` when it contributes to
`failures` — either an execution error from `query_rule`, or an
expected-vs-actual mismatch across the DENY boundary (only
`DENY`-vs-non-`DENY` disagreements count as failures). -/
def verification_case_result (i : Nat) (case : TestCase)
    (outcome : Except String OpaResult) : Option String :=
  match outcome with
  | .error e => some ("Test #" ++ toString i ++ " Execution Error: " ++ e)
  | .ok opa_res =>
    let actual_decision := verification_actual_decision opa_res
    let expected := case.expected_decision
    if expected == "DENY" && actual_decision != "DENY" then
      some ("Test #" ++ toString i ++ " (" ++ case.description ++ "): Expected DENY, got "
        ++ actual_decision)
    else if expected != "DENY" && actual_decision == "DENY" then
      some ("Test #" ++ toString i ++ " (" ++ case.description ++ "): Expected "
        ++ expected ++ ", got DENY. Reason: " ++ (opa_res.reason?.getD "None"))
    else none

/-- `_run_verification_tests`: push the draft to OPA (a compile rejection is
a single failure report), then run every test case, collecting failures;
returns `(failures, pass_count, total_count)`.  `compileOutcome` is what
`update_policy_from_string` did, `evalCase` what `query_rule` returned for
each (1-based) case. -/
def run_verification_tests (compileOutcome : Except String Unit)
    (evalCase : Nat → TestCase → Except String OpaResult)
    (test_cases : List TestCase) : List String × Nat × Nat :=
  let total_count := test_cases.length
  match compileOutcome with
  | .error e => (["OPA Compilation Error (Syntax Invalid): " ++ e], 0, total_count)
  | .ok _ =>
    let failures := (List.enumFrom 1 test_cases).filterMap
      (fun p => verification_case_result p.1 p.2 (evalCase p.1 p.2))
    (failures, total_count - failures.length, total_count)

/-! ## The self-correction loop (`_generate_rego_with_self_correction`) -/

/-- The external behaviour visible to one synthesis run: the outcome of the
initial drafting LLM call, of the test-generation LLM call (whose JSON
parse never raises: `_parse_json_from_llm` returns `[]` on garbage), of
each repair LLM call, and of the evaluator (`update_policy_from_string`
and `query_rule`) on each verification attempt. -/
structure SynthOracle where
  initialRego : Except String String
  testGen : Except String (List TestCase)
  fixRego : Nat → String → List String → Except String String
  compileOutcome : Nat → String → Except String Unit
  evalCase : Nat → Nat → TestCase → Except String OpaResult

/-- `max_retries` of `_generate_rego_with_self_correction`. -/
def max_retries : Nat := 5

/-- The `for attempt in range(max_retries)` loop of
`_generate_rego_with_self_correction`: verify the current draft; if no
failures, return it; otherwise repair (an LLM failure there raises) and
loop; when the budget is exhausted, return the last draft as-is. -/
def verify_repair_loop (o : SynthOracle) (test_cases : List TestCase) :
    Nat → Nat → String → Except String String
  | 0, _, current_rego => .ok current_rego
  | fuel + 1, attempt, current_rego =>
    let failures := (run_verification_tests (o.compileOutcome attempt current_rego)
      (o.evalCase attempt) test_cases).1
    if failures.isEmpty then .ok current_rego
    else
      match o.fixRego attempt current_rego failures with
      | .error e => .error e
      | .ok next_rego => verify_repair_loop o test_cases fuel (attempt + 1) next_rego

/-- `_generate_rego_with_self_correction`: draft once, generate the test
battery once, then run the bounded verify-repair loop.  A raising LLM call
propagates (`_call_llm` raises `RuntimeError`, nothing in the loop catches
it). -/
def generate_rego_with_self_correction (o : SynthOracle) : Except String String :=
  match o.initialRego with
  | .error e => .error e
  | .ok current_rego =>
    match o.testGen with
    | .error e => .error e
    | .ok test_cases => verify_repair_loop o test_cases max_retries 0 current_rego

/-! ## The administrative update surface (`policy_routes.py`,
`PolicyManager` write methods) -/

/-- The closed `file_type` enumeration of the update routes. -/
inductive UpdateFileType where
  | sql
  | user_table
  | policy
  | rego
  deriving Repr, DecidableEq

/-- The per-tenant artifact directory as the write methods see it: raw file
contents keyed by `policy_id` (`none` = the file does not exist yet /
cannot be read). -/
structure Store where
  employees : String → Option String
  db_schema : String → Option String
  nl_policy : String → Option String
  rego_policy : String → Option String

/-- The read-side view of a store consumed by the cache getters, together
with the JSONL line decoding performed by `_get_user_attributes`' loop
(`decode` models iterating the file and running `json.loads` per line). -/
def Store.files (s : Store) (decode : String → List Line) : ArtifactFiles :=
  { employeeFile := fun pid => (s.employees pid).map decode,
    policyFile := s.rego_policy }

/-- `PolicyManager.update_employee_table` (via `_save_raw_file`). -/
def update_employee_table (s : Store) (policy_id content : String) : Store :=
  { s with employees := fun q => if q = policy_id then some content else s.employees q }

/-- `PolicyManager.update_db_schema` (string content, via `_save_raw_file`). -/
def update_db_schema (s : Store) (policy_id content : String) : Store :=
  { s with db_schema := fun q => if q = policy_id then some content else s.db_schema q }

/-- `PolicyManager.update_rego_policy` (via `_save_raw_file`). -/
def update_rego_policy (s : Store) (policy_id content : String) : Store :=
  { s with rego_policy := fun q => if q = policy_id then some content else s.rego_policy q }

/-- The `_save_raw_file_unlocked(policy_id, "nl_policy.txt", content)` step
of `update_nl_policy`. -/
def save_nl_policy_file (s : Store) (policy_id content : String) : Store :=
  { s with nl_policy := fun q => if q = policy_id then some content else s.nl_policy q }

/-- `PolicyManager.update_nl_policy`: under the per-tenant write lock, save
the NL file, generate the Rego (`regoGen` is the outcome of
`_generate_rego_from_nl`, a raising LLM/agent call), and save the generated
policy; a generation failure is re-raised after the NL file was already
written. -/
def update_nl_policy (regoGen : Except String String) (s : Store)
    (policy_id content : String) : Store × Except String Unit :=
  let s1 := save_nl_policy_file s policy_id content
  match regoGen with
  | .error e => (s1, .error e)
  | .ok rego_content => (update_rego_policy s1 policy_id rego_content, .ok ())

/-- The process state an administrative route acts on: the artifact store
plus the controller's in-memory caches. -/
structure World where
  store : Store
  cache : CacheState

/-- `PermissionController.invalidate_cache` as the routes call it. -/
def invalidate_cache (w : World) (policy_id : String) : World :=
  { w with cache := clear_cache w.cache policy_id }

/-- The `update_policy` route: dispatch on `file_type`, save the file
(the `policy` kind also regenerates the compiled policy), then — on
success only — invalidate the tenant's caches; an exception becomes an
HTTP 500 without invalidation. -/
def update_policy_route (regoGen : Except String String) (w : World)
    (file_type : UpdateFileType) (policy_id content : String) :
    World × Except String String :=
  match file_type with
  | .sql =>
    let w1 := { w with store := update_db_schema w.store policy_id content }
    (invalidate_cache w1 policy_id, .ok "success")
  | .user_table =>
    let w1 := { w with store := update_employee_table w.store policy_id content }
    (invalidate_cache w1 policy_id, .ok "success")
  | .policy =>
    let (s1, r) := update_nl_policy regoGen w.store policy_id content
    match r with
    | .error e => ({ w with store := s1 }, .error ("Failed to update policy: " ++ e))
    | .ok _ => (invalidate_cache { w with store := s1 } policy_id, .ok "success")
  | .rego =>
    let w1 := { w with store := update_rego_policy w.store policy_id content }
    (invalidate_cache w1 policy_id, .ok "success")

/-- The `upload_file` route: identical dispatch over the decoded upload,
then cache invalidation on success. -/
def upload_file_route (regoGen : Except String String) (w : World)
    (file_type : UpdateFileType) (policy_id content_str : String) :
    World × Except String String :=
  match file_type with
  | .sql =>
    let w1 := { w with store := update_db_schema w.store policy_id content_str }
    (invalidate_cache w1 policy_id, .ok "success")
  | .user_table =>
    let w1 := { w with store := update_employee_table w.store policy_id content_str }
    (invalidate_cache w1 policy_id, .ok "success")
  | .policy =>
    let (s1, r) := update_nl_policy regoGen w.store policy_id content_str
    match r with
    | .error e => ({ w with store := s1 }, .error ("Failed to upload policy: " ++ e))
    | .ok _ => (invalidate_cache { w with store := s1 } policy_id, .ok "success")
  | .rego =>
    let w1 := { w with store := update_rego_policy w.store policy_id content_str }
    (invalidate_cache w1 policy_id, .ok "success")

/-- The `create_policy` route: save the user table, the schema and the NL
rules (the last one triggering Rego generation), then — on success —
invalidate the tenant's caches. -/
def create_policy_route (regoGen : Except String String) (w : World)
    (policy_id user_table db_schema nl_policy : String) :
    World × Except String String :=
  let s1 := update_employee_table w.store policy_id user_table
  let s2 := update_db_schema s1 policy_id db_schema
  let (s3, r) := update_nl_policy regoGen s2 policy_id nl_policy
  match r with
  | .error e => ({ w with store := s3 }, .error ("Failed to create policy: " ++ e))
  | .ok _ => (invalidate_cache { w with store := s3 } policy_id, .ok "success")

/-! ## Interleaving model A: the per-tenant write mutex (C8)

`asyncio` cooperative concurrency: tasks interleave only at suspension
points.  `update_nl_policy` runs, for one tenant: acquire
`policy_write_locks[policy_id]`; write `nl_policy.txt`
(`_save_raw_file_unlocked`, whose body has no `await` and is atomic);
`await _generate_rego_from_nl` (an LLM call — a genuine suspension point);
write `policy.rego`; release.  A cache-layer reader (`_get_policy` /
`_read_file_safe`) reads files without touching `policy_write_locks`.
Each `WAct` below is one atomic (suspension-free) section; a schedule is
a list of task indices; a blocked or finished task's step is a no-op. -/

/-- One atomic section of a task in the write-coordinator model.  File
contents are version numbers: `writeNL v` models saving `nl_policy.txt`
with content version `v`. -/
inductive WAct where
  | acquire
  | release
  | writeNL (v : Nat)
  | writeRego (v : Nat)
  | llmGen
  | readNL
  | readRego
  deriving Repr, DecidableEq

/-- A task: its remaining program and the file versions it has observed. -/
structure WTask where
  prog : List WAct
  obs : List Nat
  deriving Repr, DecidableEq

/-- Shared state: the tasks, the owner of the tenant's
`policy_write_locks` entry, and the two artifact files' current versions. -/
structure WSys where
  tasks : List WTask
  owner : Option Nat
  nlFile : Nat
  regoFile : Nat
  deriving Repr, DecidableEq

/-- Execute the next atomic section of task `i`, if it is enabled:
`acquire` blocks while the lock is held, `release` requires ownership,
everything else always proceeds. -/
def wstep (s : WSys) (i : Nat) : Option WSys :=
  match s.tasks.get? i with
  | none => none
  | some t =>
    match t.prog with
    | [] => none
    | a :: rest =>
      match a with
      | .acquire =>
        match s.owner with
        | some _ => none
        | none =>
          some { s with owner := some i, tasks := s.tasks.set i { t with prog := rest } }
      | .release =>
        if s.owner = some i then
          some { s with owner := none, tasks := s.tasks.set i { t with prog := rest } }
        else none
      | .writeNL v =>
        some { s with nlFile := v, tasks := s.tasks.set i { t with prog := rest } }
      | .writeRego v =>
        some { s with regoFile := v, tasks := s.tasks.set i { t with prog := rest } }
      | .llmGen =>
        some { s with tasks := s.tasks.set i { t with prog := rest } }
      | .readNL =>
        some { s with tasks := s.tasks.set i { prog := rest, obs := t.obs ++ [s.nlFile] } }
      | .readRego =>
        some { s with tasks := s.tasks.set i { prog := rest, obs := t.obs ++ [s.regoFile] } }

/-- Run a schedule; a disabled choice leaves the state unchanged. -/
def wrun (s : WSys) : List Nat → WSys
  | [] => s
  | i :: sched => wrun ((wstep s i).getD s) sched

/-- The atomic sections of `update_nl_policy` writing content version `v`:
lock, save the NL file, await the generation LLM call, save the compiled
policy, unlock. -/
def nl_update_prog (v : Nat) : List WAct :=
  [.acquire, .writeNL v, .llmGen, .writeRego v, .release]

/-- A cache-layer reader: reads the NL file then the compiled-policy file,
acquiring no write lock (as `_read_file_safe` / `_get_policy` do). -/
def cache_reader_prog : List WAct :=
  [.readNL, .readRego]

/-- The suffixes of `nl_update_prog v`: the possible residual programs of a
composite updater. -/
def nl_update_suffixes (v : Nat) : List (List WAct) :=
  [nl_update_prog v,
   [.writeNL v, .llmGen, .writeRego v, .release],
   [.llmGen, .writeRego v, .release],
   [.writeRego v, .release],
   [.release],
   []]

/-- A composite updater is mid-update (it has acquired the mutex and not
yet released it) exactly when its residual program is a proper non-empty
suffix of its full program. -/
def mid_update (v : Nat) (p : List WAct) : Bool :=
  p != nl_update_prog v && p != []

/-- Initial state for two concurrent administrative NL-policy updates on
the same tenant (versions 1 and 2). -/
def twoWriterSys : WSys :=
  { tasks := [⟨nl_update_prog 1, []⟩, ⟨nl_update_prog 2, []⟩],
    owner := none, nlFile := 0, regoFile := 0 }

/-- Reachability invariant of `twoWriterSys`: each task's program is a
suffix of its full program, its observation log is empty, and the mutex is
held by a task exactly while that task is mid-update. -/
def WInv (s : WSys) : Prop :=
  match s.tasks with
  | [t0, t1] =>
    t0.prog ∈ nl_update_suffixes 1 ∧ t1.prog ∈ nl_update_suffixes 2 ∧
    t0.obs = [] ∧ t1.obs = [] ∧
    (s.owner = some 0 ↔ mid_update 1 t0.prog = true) ∧
    (s.owner = some 1 ↔ mid_update 2 t1.prog = true) ∧
    (s.owner = none ∨ s.owner = some 0 ∨ s.owner = some 1)
  | _ => False

/-! ## Interleaving model B: double-checked cache population (C9)

`_get_user_attributes` (and `_get_policy`, which has exactly the same
shape) runs: check `policy_id not in _employee_cache` (synchronous); on a
miss, `async with _file_locks[filepath]` (the only suspension point: the
task parks while the lock is held); once the lock is granted, re-check the
cache, read + parse + store on a still-miss, and release — that whole
section contains no `await` and is one atomic step.  Each tenant has its
own `filepath`, hence its own lock. -/

/-- Progress of one cache `get`: about to run the initial check; parked on
the tenant's file lock after a miss; inside the locked double-check /
populate / release section; finished. -/
inductive GetPhase where
  | start
  | wantLock
  | locked
  | done
  deriving Repr, DecidableEq

/-- One in-flight `get(tenantId)` call. -/
structure GetTask where
  pid : String
  phase : GetPhase
  deriving Repr, DecidableEq

/-- Shared state of the population model: the in-flight gets, the held
per-path file locks (tenant → owning task), the set of tenants already
populated in the cache, and the log of artifact-store reads (one entry,
the tenant id, per file open). -/
structure CSys where
  tasks : List GetTask
  locks : List (String × Nat)
  cachePids : List String
  reads : List String
  deriving Repr, DecidableEq

/-- Execute the next atomic section of get-task `i`: the initial check
routes to `done` on a hit and to the lock wait on a miss; the lock wait
blocks while the tenant's lock is held; the locked section re-checks,
reads the file only on a still-miss, stores, and releases. -/
def cstep (s : CSys) (i : Nat) : Option CSys :=
  match s.tasks[i]? with
  | none => none
  | some t =>
    match t.phase with
    | .start =>
      if s.cachePids.contains t.pid then
        some { s with tasks := s.tasks.set i { t with phase := .done } }
      else
        some { s with tasks := s.tasks.set i { t with phase := .wantLock } }
    | .wantLock =>
      if (s.locks.lookup t.pid).isSome then none
      else
        some { s with locks := (t.pid, i) :: s.locks,
                      tasks := s.tasks.set i { t with phase := .locked } }
    | .locked =>
      let s1 :=
        if s.cachePids.contains t.pid then s
        else { s with cachePids := t.pid :: s.cachePids, reads := t.pid :: s.reads }
      some { s1 with locks := s1.locks.filter (fun e => e.1 ≠ t.pid),
                     tasks := s1.tasks.set i { t with phase := .done } }
    | .done => none

/-- Run a schedule; a disabled choice leaves the state unchanged. -/
def crun (s : CSys) : List Nat → CSys
  | [] => s
  | i :: sched => crun ((cstep s i).getD s) sched

/-- How many times tenant `p`'s artifact file has been opened. -/
def readCount (s : CSys) (p : String) : Nat :=
  (s.reads.filter (fun q => q = p)).length

/-- `N` simultaneous first-time `get` calls, for arbitrarily mixed
tenants, on a cold cache with no lock held. -/
def coldSys (pids : List String) : CSys :=
  { tasks := pids.map (fun p => ⟨p, .start⟩), locks := [], cachePids := [], reads := [] }

/-- Invariant of the population model: a tenant absent from the cache has
never been read, and a present one has been read at most once. -/
def CInv (s : CSys) : Prop :=
  ∀ p : String, (p ∈ s.cachePids → readCount s p ≤ 1) ∧
    (p ∉ s.cachePids → readCount s p = 0)

/-! ## Association-list helper lemmas -/

theorem lookup_filter_self {β : Type} (l : List (String × β)) (p : String) :
    (l.filter (fun e => e.1 ≠ p)).lookup p = none := by
  induction l with
  | nil => rfl
  | cons a l ih =>
    rcases a with ⟨k, v⟩
    by_cases h : k = p
    · simpa [List.filter_cons, h] using ih
    · have hk : (p == k) = false := by simp [Ne.symm h]
      simp [List.filter_cons, h, List.lookup, hk]
      exact fun a b _ ha hpa => ha hpa.symm

theorem lookup_filter_ne {β : Type} (l : List (String × β)) (p q : String) (h : q ≠ p) :
    (l.filter (fun e => e.1 ≠ p)).lookup q = l.lookup q := by
  induction l with
  | nil => rfl
  | cons a l ih =>
    rcases a with ⟨k, v⟩
    by_cases hk : k = p
    · subst hk
      have hq : (q == k) = false := by simp [h]
      simp [List.filter_cons, List.lookup, hq]
      simpa using ih
    · by_cases hq : q = k
      · simp [List.filter_cons, hk, List.lookup, hq]
      · have hq' : (q == k) = false := by simp [hq]
        simp [List.filter_cons, hk, List.lookup, hq']
        simpa using ih

/-! ## Concrete fixtures used by the witnesses -/

/-- A sample user record. -/
def exUser : UserInfo := ⟨"emp_manager", "manager", [("department", "Sales")]⟩

/-- An artifact directory holding one employee record and a non-empty
compiled policy for every tenant. -/
def exFiles : ArtifactFiles :=
  { employeeFile := fun _ => some [.record "emp_manager" exUser],
    policyFile := fun _ => some "package t1.access" }

/-- An intent whose requested columns exactly match the verdict below. -/
def exIntentMatch : QueryIntent :=
  ⟨["employees"], ["employees.name"], [], "select"⟩

/-- An allowing verdict with no row constraints whose allowed columns
match `exIntentMatch`. -/
def exVerdictMatch : OpaResult :=
  ⟨some true, ["employees.name"], [], some "Access Granted"⟩

/-- Oracle outcomes for a fully successful mediation of `exIntentMatch`
against `exVerdictMatch`. -/
def exOracleMatch : OracleEnv :=
  { parseResult := .ok exIntentMatch,
    opaOutcome := .ok exVerdictMatch,
    rewriteOutcome := .ok "rewritten query" }

/-- C1.  For every verdict with `allowed = true` that the pipeline reaches
(user resolved, intent parsed, policy non-empty, rewrite oracle answering),
the decision is `ALLOW` exactly when `needs_rewrite` — the set-inequality
of allowed vs requested columns, or non-empty row constraints — is false,
and `REWRITE` exactly when it is true; on `ALLOW` the returned rewritten
text is the original request text. -/
theorem C1_classification_law
    (fs : ArtifactFiles) (ora : OracleEnv) (st : CacheState)
    (policy_id user_id query : String)
    (u : UserInfo) (parsed : QueryIntent) (opa : OpaResult) (rw : String)
    (hu : (get_user_attributes fs st policy_id user_id).2 = some u)
    (hparse : ora.parseResult = .ok parsed)
    (hpol : (get_policy fs (get_user_attributes fs st policy_id user_id).1 policy_id).2 ≠ "")
    (hopa : ora.opaOutcome = .ok opa)
    (hallowed : opa.allowed? = some true)
    (hrw : ora.rewriteOutcome = .ok rw) :
    mediationDecision fs ora st policy_id user_id query =
      (if needs_rewrite opa.allowed_columns parsed.columns opa.row_constraints
        then Decision.REWRITE rw else Decision.ALLOW query) ∧
    (mediationDecision fs ora st policy_id user_id query = Decision.ALLOW query ↔
      needs_rewrite opa.allowed_columns parsed.columns opa.row_constraints = false) ∧
    ((∃ r, mediationDecision fs ora st policy_id user_id query = Decision.REWRITE r) ↔
      needs_rewrite opa.allowed_columns parsed.columns opa.row_constraints = true) := by
  have hmain : mediationDecision fs ora st policy_id user_id query =
      (if needs_rewrite opa.allowed_columns parsed.columns opa.row_constraints
        then Decision.REWRITE rw else Decision.ALLOW query) := by
    unfold mediationDecision check_query
    simp only [hu, hparse, hopa, hallowed, hrw]
    rw [if_neg hpol]
    cases hnr : needs_rewrite opa.allowed_columns parsed.columns opa.row_constraints <;>
      simp [hnr]
  cases hnr : needs_rewrite opa.allowed_columns parsed.columns opa.row_constraints with
  | true =>
    rw [hnr, if_pos rfl] at hmain
    refine ⟨by rw [hmain]; simp, ?_, ?_⟩
    · simp [hmain]
    · exact ⟨fun _ => rfl, fun _ => ⟨rw, hmain⟩⟩
  | false =>
    rw [hnr] at hmain
    simp only [Bool.false_eq_true, if_false] at hmain
    refine ⟨by rw [hmain]; simp, ?_, ?_⟩
    · exact ⟨fun _ => rfl, fun _ => hmain⟩
    · simp [hmain]

/-- Witness for C1: in the matched-columns, no-constraints scenario of the
spec (§8, scenario 1), the decision is `ALLOW` with the original text. -/
theorem C1_classification_law_witness :
    mediationDecision exFiles exOracleMatch CacheState.empty "t1" "emp_manager" "show names" =
      Decision.ALLOW "show names" := by
  have h := C1_classification_law exFiles exOracleMatch CacheState.empty
    "t1" "emp_manager" "show names" exUser exIntentMatch exVerdictMatch "rewritten query"
    (by decide) rfl (by decide) rfl rfl rfl
  have hnr : needs_rewrite exVerdictMatch.allowed_columns exIntentMatch.columns
      exVerdictMatch.row_constraints = false := by decide
  rw [h.1, hnr]
  simp

/-- The error events of the mediation pipeline, stage by stage, each taken
at the point where `check_query` would observe it: unknown user/tenant;
intent-parse exception; empty/missing compiled policy; evaluator exception
or a reply without the `allowed` field; rewrite exception when a rewrite is
required. -/
def stage_error (fs : ArtifactFiles) (ora : OracleEnv) (st : CacheState)
    (policy_id user_id : String) : Prop :=
  (get_user_attributes fs st policy_id user_id).2 = none ∨
  ((get_user_attributes fs st policy_id user_id).2 ≠ none ∧
    ((∃ e, ora.parseResult = .error e) ∨
     (∃ parsed, ora.parseResult = .ok parsed ∧
       ((get_policy fs (get_user_attributes fs st policy_id user_id).1 policy_id).2 = "" ∨
        ((get_policy fs (get_user_attributes fs st policy_id user_id).1 policy_id).2 ≠ "" ∧
          ((∃ e, ora.opaOutcome = .error e) ∨
           (∃ opa, ora.opaOutcome = .ok opa ∧
             (opa.allowed? = none ∨
              (opa.allowed? = some true ∧
                needs_rewrite opa.allowed_columns parsed.columns opa.row_constraints = true ∧
                ∃ e, ora.rewriteOutcome = .error e)))))))))

/-- C2.  Fail-closed law: any stage error — unknown user, parse failure,
missing policy, evaluator failure or a verdict without `allowed`, rewrite
failure — yields a `DENY` decision; `check_query` being a total function
into `Decision`, no exception escapes the pipeline boundary. -/
theorem C2_fail_closed (fs : ArtifactFiles) (ora : OracleEnv) (st : CacheState)
    (policy_id user_id query : String)
    (h : stage_error fs ora st policy_id user_id) :
    (mediationDecision fs ora st policy_id user_id query).isDeny = true := by
  unfold stage_error at h
  rcases h with hnone | ⟨hsome, h⟩
  · simp [mediationDecision, check_query, hnone, Decision.isDeny]
  · obtain ⟨u, hu⟩ := Option.ne_none_iff_exists'.mp hsome
    rcases h with ⟨e, he⟩ | ⟨parsed, hparsed, h⟩
    · simp [mediationDecision, check_query, hu, he, Decision.isDeny]
    · rcases h with hpol | ⟨hpol, h⟩
      · simp [mediationDecision, check_query, hu, hparsed, hpol, Decision.isDeny]
      · rcases h with ⟨e, hopa⟩ | ⟨opa, hopa, h⟩
        · simp [mediationDecision, check_query, hu, hparsed, hpol, hopa, Decision.isDeny]
        · rcases h with hnoall | ⟨hall, hnr, e, hrw⟩
          · simp [mediationDecision, check_query, hu, hparsed, hpol, hopa, hnoall,
              Decision.isDeny]
          · simp [mediationDecision, check_query, hu, hparsed, hpol, hopa, hall, hnr, hrw,
              Decision.isDeny]

/-- An artifact directory in which every read fails. -/
def exNoFiles : ArtifactFiles :=
  { employeeFile := fun _ => none, policyFile := fun _ => none }

/-- Witness for C2: an unknown tenant (spec §8, scenario 4) is a stage
error and is decided `DENY`. -/
theorem C2_fail_closed_witness :
    (mediationDecision exNoFiles exOracleMatch CacheState.empty "t9" "ghost" "q").isDeny
      = true :=
  C2_fail_closed exNoFiles exOracleMatch CacheState.empty "t9" "ghost" "q"
    (Or.inl (by decide))

/-- C5.  A request whose tenant or user id does not resolve to a user
record is denied with exactly "User or Policy ID not found." and no
oracle or evaluator call is made. -/
theorem C5_unknown_identity (fs : ArtifactFiles) (ora : OracleEnv) (st : CacheState)
    (policy_id user_id query : String)
    (h : (get_user_attributes fs st policy_id user_id).2 = none) :
    mediationDecision fs ora st policy_id user_id query =
      Decision.DENY "User or Policy ID not found." ∧
    mediationCalls fs ora st policy_id user_id query = [] := by
  constructor <;> simp [mediationDecision, mediationCalls, check_query, h]

/-- Witness for C5: an unknown tenant id on a cold cache. -/
theorem C5_unknown_identity_witness :
    mediationDecision exNoFiles exOracleMatch CacheState.empty "tX" "uX" "q2" =
      Decision.DENY "User or Policy ID not found." ∧
    mediationCalls exNoFiles exOracleMatch CacheState.empty "tX" "uX" "q2" = [] :=
  C5_unknown_identity exNoFiles exOracleMatch CacheState.empty "tX" "uX" "q2" (by decide)

/-- A user-table load aborts as soon as any line raises: the whole file
maps to `none`. -/
theorem buildEmployeeMap_bad (lines : List Line) :
    Line.bad ∈ lines → ∀ acc, buildEmployeeMap lines acc = none := by
  induction lines with
  | nil => intro h; cases h
  | cons l rest ih =>
    intro h acc
    rcases List.mem_cons.mp h with h' | h'
    · rw [← h']; rfl
    · cases l with
      | blank => simpa [buildEmployeeMap] using ih h' acc
      | bad => rfl
      | record uid rec => simpa [buildEmployeeMap] using ih h' ((uid, rec) :: acc)

/-- C10.  If any non-blank line of a tenant's user-table file fails to
parse (or lacks `user_id`), the loader caches the empty table — records
from other lines included — so the current lookup and every subsequent
lookup for that tenant, for any user id, yields `none`, and the mediation
decision is the user-not-found `DENY`, until the cache is invalidated. -/
theorem C10_bad_user_table_line
    (fs : ArtifactFiles) (ora : OracleEnv) (st : CacheState)
    (policy_id user_id query : String) (lines : List Line)
    (hmiss : st.employee_cache.lookup policy_id = none)
    (hfile : fs.employeeFile policy_id = some lines)
    (hbad : Line.bad ∈ lines) :
    (get_user_attributes fs st policy_id user_id).2 = none ∧
    (get_user_attributes fs st policy_id user_id).1.employee_cache.lookup policy_id
      = some [] ∧
    (∀ uid', (get_user_attributes fs (get_user_attributes fs st policy_id user_id).1
        policy_id uid').2 = none) ∧
    mediationDecision fs ora st policy_id user_id query =
      Decision.DENY "User or Policy ID not found." := by
  have hb := buildEmployeeMap_bad lines hbad []
  have h1 : get_user_attributes fs st policy_id user_id =
      ({ st with employee_cache := (policy_id, []) :: st.employee_cache }, none) := by
    unfold get_user_attributes
    simp [hmiss, hfile, hb, List.lookup]
  refine ⟨by rw [h1], ?_, ?_, ?_⟩
  · rw [h1]; simp [List.lookup]
  · intro uid'
    rw [h1]
    unfold get_user_attributes
    simp [List.lookup]
  · simp [mediationDecision, check_query, h1]

/-- An artifact directory whose user table has a good first line and a
corrupt second line. -/
def exBadLineFiles : ArtifactFiles :=
  { employeeFile := fun _ => some [.record "emp_manager" exUser, .bad],
    policyFile := fun _ => some "package t1.access" }

/-- Witness for C10: with a corrupt second line, even the user of the
well-formed first line is not found and the request is denied. -/
theorem C10_bad_user_table_line_witness :
    (get_user_attributes exBadLineFiles CacheState.empty "t1" "emp_manager").2 = none ∧
    mediationDecision exBadLineFiles exOracleMatch CacheState.empty "t1" "emp_manager" "q" =
      Decision.DENY "User or Policy ID not found." := by
  have h := C10_bad_user_table_line exBadLineFiles exOracleMatch CacheState.empty
    "t1" "emp_manager" "q" [.record "emp_manager" exUser, .bad]
    (by decide) rfl (by decide)
  exact ⟨h.1, h.2.2.2⟩

/-- C6.  Every cache miss is resolved before the get returns: after a
lookup the cache holds an entry for the tenant (real parsed content or the
explicit empty sentinel); a file-system error on a miss stores the empty
sentinel (`{}` for the user table, `""` for the policy); downstream, an
empty cached policy yields `DENY "Policy file not found."` and an empty
cached user table yields the user-not-found `DENY`. -/
theorem C6_miss_always_resolved
    (fs : ArtifactFiles) (ora : OracleEnv) (st : CacheState)
    (policy_id user_id query : String) :
    ((get_user_attributes fs st policy_id user_id).1.employee_cache.lookup policy_id).isSome
      = true ∧
    ((get_policy fs st policy_id).1.policy_cache.lookup policy_id).isSome = true ∧
    (st.employee_cache.lookup policy_id = none → fs.employeeFile policy_id = none →
      (get_user_attributes fs st policy_id user_id).1.employee_cache.lookup policy_id
        = some []) ∧
    (st.policy_cache.lookup policy_id = none → fs.policyFile policy_id = none →
      (get_policy fs st policy_id).1.policy_cache.lookup policy_id = some "") ∧
    ((get_policy fs (get_user_attributes fs st policy_id user_id).1 policy_id).2 = "" →
      ∀ u parsed, (get_user_attributes fs st policy_id user_id).2 = some u →
        ora.parseResult = .ok parsed →
        mediationDecision fs ora st policy_id user_id query =
          Decision.DENY "Policy file not found.") ∧
    ((get_user_attributes fs st policy_id user_id).1.employee_cache.lookup policy_id
        = some [] →
      mediationDecision fs ora st policy_id user_id query =
        Decision.DENY "User or Policy ID not found.") := by
  refine ⟨?_, ?_, ?_, ?_, ?_, ?_⟩
  · unfold get_user_attributes
    by_cases h : (st.employee_cache.lookup policy_id).isSome
    · simp [h]
    · simp [h, List.lookup]
  · unfold get_policy
    by_cases h : (st.policy_cache.lookup policy_id).isSome
    · simp [h]
    · simp [h, List.lookup]
  · intro hmiss hfile
    unfold get_user_attributes
    simp [hmiss, hfile, List.lookup]
  · intro hmiss hfile
    unfold get_policy
    simp [hmiss, hfile, List.lookup]
  · intro hpol u parsed hu hparse
    simp [mediationDecision, check_query, hu, hparse, hpol]
  · intro hcache
    have h2 : (get_user_attributes fs st policy_id user_id).2 =
        (((get_user_attributes fs st policy_id user_id).1.employee_cache.lookup
          policy_id).getD []).lookup user_id := rfl
    have hnone : (get_user_attributes fs st policy_id user_id).2 = none := by
      rw [h2, hcache]; rfl
    simp [mediationDecision, check_query, hnone]

/-- C7.  `clear_cache` removes both per-tenant entries; a get after an
invalidation re-reads the artifact store (it behaves exactly as on a cold
cache, observing the file's current content); and each administrative
route — create, update, file upload — leaves, on success, no cached entry
for the affected tenant, so that e.g. a compiled-policy update followed by
a `get_policy` observes the newly written content. -/
theorem C7_invalidation_coherence :
    (∀ st policy_id, (clear_cache st policy_id).employee_cache.lookup policy_id = none ∧
        (clear_cache st policy_id).policy_cache.lookup policy_id = none) ∧
    (∀ fs st policy_id, (get_policy fs (clear_cache st policy_id) policy_id).2 =
        (fs.policyFile policy_id).getD "" ∧
      (get_policy fs (clear_cache st policy_id) policy_id).2 =
        (get_policy fs CacheState.empty policy_id).2) ∧
    (∀ fs st policy_id user_id,
      (get_user_attributes fs (clear_cache st policy_id) policy_id user_id).2 =
        (get_user_attributes fs CacheState.empty policy_id user_id).2) ∧
    (∀ regoGen w file_type policy_id content w' resp,
      update_policy_route regoGen w file_type policy_id content = (w', .ok resp) →
        w'.cache.employee_cache.lookup policy_id = none ∧
        w'.cache.policy_cache.lookup policy_id = none) ∧
    (∀ regoGen w file_type policy_id content w' resp,
      upload_file_route regoGen w file_type policy_id content = (w', .ok resp) →
        w'.cache.employee_cache.lookup policy_id = none ∧
        w'.cache.policy_cache.lookup policy_id = none) ∧
    (∀ regoGen w policy_id user_table db_schema nl_policy w' resp,
      create_policy_route regoGen w policy_id user_table db_schema nl_policy
          = (w', .ok resp) →
        w'.cache.employee_cache.lookup policy_id = none ∧
        w'.cache.policy_cache.lookup policy_id = none) ∧
    (∀ regoGen w policy_id content decode,
      (get_policy ((update_policy_route regoGen w .rego policy_id content).1.store.files
          decode)
        (update_policy_route regoGen w .rego policy_id content).1.cache policy_id).2 =
        content) := by
  have hclear : ∀ st policy_id,
      (clear_cache st policy_id).employee_cache.lookup policy_id = none ∧
      (clear_cache st policy_id).policy_cache.lookup policy_id = none := by
    intro st policy_id
    exact ⟨lookup_filter_self _ _, lookup_filter_self _ _⟩
  refine ⟨hclear, ?_, ?_, ?_, ?_, ?_, ?_⟩
  · intro fs st policy_id
    have h := (hclear st policy_id).2
    constructor
    · unfold get_policy
      simp [h, List.lookup]
    · unfold get_policy
      simp [h, CacheState.empty, List.lookup]
  · intro fs st policy_id user_id
    have h := (hclear st policy_id).1
    unfold get_user_attributes
    simp [h, CacheState.empty, List.lookup]
  · intro regoGen w file_type policy_id content w' resp hroute
    cases file_type <;> simp [update_policy_route, invalidate_cache] at hroute
    case sql =>
      obtain ⟨hw, -⟩ := hroute
      rw [← hw]
      exact hclear _ _
    case user_table =>
      obtain ⟨hw, -⟩ := hroute
      rw [← hw]
      exact hclear _ _
    case policy =>
      cases hg : regoGen with
      | error e => rw [hg] at hroute; simp [update_nl_policy] at hroute
      | ok rego =>
        rw [hg] at hroute
        simp [update_nl_policy] at hroute
        obtain ⟨hw, -⟩ := hroute
        rw [← hw]
        exact hclear _ _
    case rego =>
      obtain ⟨hw, -⟩ := hroute
      rw [← hw]
      exact hclear _ _
  · intro regoGen w file_type policy_id content w' resp hroute
    cases file_type <;> simp [upload_file_route, invalidate_cache] at hroute
    case sql =>
      obtain ⟨hw, -⟩ := hroute
      rw [← hw]
      exact hclear _ _
    case user_table =>
      obtain ⟨hw, -⟩ := hroute
      rw [← hw]
      exact hclear _ _
    case policy =>
      cases hg : regoGen with
      | error e => rw [hg] at hroute; simp [update_nl_policy] at hroute
      | ok rego =>
        rw [hg] at hroute
        simp [update_nl_policy] at hroute
        obtain ⟨hw, -⟩ := hroute
        rw [← hw]
        exact hclear _ _
    case rego =>
      obtain ⟨hw, -⟩ := hroute
      rw [← hw]
      exact hclear _ _
  · intro regoGen w policy_id user_table db_schema nl_policy w' resp hroute
    cases hg : regoGen with
    | error e =>
      rw [hg] at hroute; simp [create_policy_route, update_nl_policy] at hroute
    | ok rego =>
      rw [hg] at hroute
      simp [create_policy_route, update_nl_policy, invalidate_cache] at hroute
      obtain ⟨hw, -⟩ := hroute
      rw [← hw]
      exact hclear _ _
  · intro regoGen w policy_id content decode
    have h := (hclear w.cache policy_id).2
    simp [update_policy_route, invalidate_cache, clear_cache, Store.files,
      update_rego_policy, get_policy, lookup_filter_self, List.lookup]

/-- The verdict on which verification-time and request-time classification
diverge: allowed, one permitted column, no row constraints. -/
def divergingVerdict : OpaResult :=
  ⟨some true, ["employees.name"], [], some "Access Granted"⟩

/-- The request intent for the divergence: two requested columns, of which
the verdict above permits only one. -/
def divergingIntent : QueryIntent :=
  ⟨["employees"], ["employees.name", "employees.salary"], [], "select"⟩

/-- Oracle outcomes delivering `divergingIntent` and `divergingVerdict`. -/
def divergingOracle : OracleEnv :=
  { parseResult := .ok divergingIntent,
    opaOutcome := .ok divergingVerdict,
    rewriteOutcome := .ok "only the names" }

/-- C3 (code defect, evaluated at the failing input).  On an allowed
verdict with empty row constraints whose `allowed_columns` differ from the
requested columns, `_run_verification_tests` classifies `ALLOW` — it never
compares against the requested columns — while `check_query` computes
`needs_rewrite = true` and classifies `REWRITE`: the two classifications
are not equal. -/
theorem C3_verification_classification_diverges :
    verification_actual_decision divergingVerdict = "ALLOW" ∧
    (mediationDecision exFiles divergingOracle CacheState.empty "t1" "emp_manager"
      "names and salaries").kind = "REWRITE" ∧
    needs_rewrite divergingVerdict.allowed_columns divergingIntent.columns
      divergingVerdict.row_constraints = true ∧
    verification_actual_decision divergingVerdict ≠
      (mediationDecision exFiles divergingOracle CacheState.empty "t1" "emp_manager"
        "names and salaries").kind := by
  refine ⟨by decide, by decide, by decide, by decide⟩

/-- A synthetic test case for the loop fixtures. -/
def exTestCase : TestCase :=
  ⟨"chief reads all columns", "chief", "u1", [], ["*"], "ALLOW"⟩

/-- A synthesis run whose repair LLM call raises, against an evaluator that
rejects every draft. -/
def synthOracleRaise : SynthOracle :=
  { initialRego := .ok "package p.access",
    testGen := .ok [exTestCase],
    fixRego := fun _ _ _ => .error "LLM Call Failed: connection reset",
    compileOutcome := fun _ _ => .error "rego_parse_error",
    evalCase := fun _ _ _ => .ok divergingVerdict }

/-- A synthesis run all of whose LLM generations are the empty document,
against an evaluator that rejects every draft. -/
def synthOracleEmpty : SynthOracle :=
  { initialRego := .ok "",
    testGen := .ok [exTestCase],
    fixRego := fun _ _ _ => .ok "",
    compileOutcome := fun _ _ => .error "rego_parse_error",
    evalCase := fun _ _ _ => .ok divergingVerdict }

/-- C4 counterexample.  The loop does not return a draft under every
oracle behaviour, and what it returns need not be non-empty: a raising
repair call propagates out of the loop as an exception instead of
returning the last draft, and an oracle that always produces the empty
document makes the loop return the empty document after exhausting the
budget. -/
theorem C4_counterexample :
    generate_rego_with_self_correction synthOracleRaise =
      .error "LLM Call Failed: connection reset" ∧
    generate_rego_with_self_correction synthOracleEmpty = .ok "" :=
  ⟨rfl, rfl⟩

/-- When every repair call returns, the loop always returns a draft. -/
theorem verify_repair_loop_ok (o : SynthOracle) (tcs : List TestCase)
    (hfix : ∀ a d f, ∃ d', o.fixRego a d f = .ok d') :
    ∀ fuel attempt d, ∃ d', verify_repair_loop o tcs fuel attempt d = .ok d' := by
  intro fuel
  induction fuel with
  | zero => intro attempt d; exact ⟨d, rfl⟩
  | succ n ih =>
    intro attempt d
    by_cases hf : ((run_verification_tests (o.compileOutcome attempt d)
        (o.evalCase attempt) tcs).1).isEmpty
    · exact ⟨d, by simp [verify_repair_loop, hf]⟩
    · obtain ⟨d', hd'⟩ := hfix attempt d
        ((run_verification_tests (o.compileOutcome attempt d) (o.evalCase attempt) tcs).1)
      obtain ⟨d'', hd''⟩ := ih (attempt + 1) d'
      exact ⟨d'', by simp [verify_repair_loop, hf, hd', hd'']⟩

/-- The loop consults the repair oracle and the evaluator only at attempts
`attempt, …, attempt + fuel - 1`. -/
theorem verify_repair_loop_congr (o o' : SynthOracle) (tcs : List TestCase) :
    ∀ fuel attempt d,
      (∀ a, attempt ≤ a → a < attempt + fuel →
        o.fixRego a = o'.fixRego a ∧ o.compileOutcome a = o'.compileOutcome a ∧
        o.evalCase a = o'.evalCase a) →
      verify_repair_loop o tcs fuel attempt d = verify_repair_loop o' tcs fuel attempt d := by
  intro fuel
  induction fuel with
  | zero => intro attempt d _; rfl
  | succ n ih =>
    intro attempt d h
    obtain ⟨hfix, hcomp, heval⟩ := h attempt (Nat.le_refl _) (by omega)
    by_cases hf : ((run_verification_tests (o'.compileOutcome attempt d)
        (o'.evalCase attempt) tcs).1).isEmpty
    · simp [verify_repair_loop, hcomp, heval, hf]
    · simp only [verify_repair_loop, hcomp, heval, hfix, hf, Bool.false_eq_true, if_false]
      cases o'.fixRego attempt d
          ((run_verification_tests (o'.compileOutcome attempt d) (o'.evalCase attempt) tcs).1)
        with
      | error e => rfl
      | ok next => exact ih (attempt + 1) next (fun a h1 h2 => h a (by omega) (by omega))

/-- C4 (amended).  When the drafting and test-generation calls return, the
loop performs at most `max_retries` (5) verify-repair attempts — its
result is unchanged by any modification of the repair oracle or evaluator
at attempts ≥ 5; if the first verification reports no failures it returns
the initial draft; and when every repair call returns, the loop always
terminates with some draft (the budget-exhausted path returns the last
draft rather than failing) — but that draft may be empty (see the
counterexample). -/
theorem C4_bounded_best_effort_loop :
    (∀ (o : SynthOracle) (d0 : String) (tcs : List TestCase),
      o.initialRego = .ok d0 → o.testGen = .ok tcs →
      (∀ a d f, ∃ d', o.fixRego a d f = .ok d') →
      ∃ d, generate_rego_with_self_correction o = .ok d) ∧
    (∀ (o : SynthOracle) (d0 : String) (tcs : List TestCase),
      o.initialRego = .ok d0 → o.testGen = .ok tcs →
      (run_verification_tests (o.compileOutcome 0 d0) (o.evalCase 0) tcs).1 = [] →
      generate_rego_with_self_correction o = .ok d0) ∧
    (∀ o o' : SynthOracle, o.initialRego = o'.initialRego → o.testGen = o'.testGen →
      (∀ a, a < max_retries → o.fixRego a = o'.fixRego a ∧
        o.compileOutcome a = o'.compileOutcome a ∧ o.evalCase a = o'.evalCase a) →
      generate_rego_with_self_correction o = generate_rego_with_self_correction o') := by
  refine ⟨?_, ?_, ?_⟩
  · intro o d0 tcs h0 ht hfix
    simp only [generate_rego_with_self_correction, h0, ht]
    exact verify_repair_loop_ok o tcs hfix max_retries 0 d0
  · intro o d0 tcs h0 ht hpass
    simp only [generate_rego_with_self_correction, h0, ht]
    have : ((run_verification_tests (o.compileOutcome 0 d0) (o.evalCase 0) tcs).1).isEmpty
        = true := by
      rw [hpass]; rfl
    simp [max_retries, verify_repair_loop, this]
  · intro o o' h0 ht h
    rw [generate_rego_with_self_correction, generate_rego_with_self_correction, ← h0, ← ht]
    cases o.initialRego with
    | error e => rfl
    | ok d0 =>
      cases o.testGen with
      | error e => rfl
      | ok tcs =>
        exact verify_repair_loop_congr o o' tcs max_retries 0 d0
          (fun a h1 h2 => h a (by simpa using h2))

/-- One composite NL-policy update racing one cache-layer reader. -/
def writerReaderSys : WSys :=
  { tasks := [⟨nl_update_prog 1, []⟩, ⟨cache_reader_prog, []⟩],
    owner := none, nlFile := 0, regoFile := 0 }

/-- C8 counterexample.  While the composite updater holds the write mutex
(it has saved the new NL file, version 1, and is awaiting the generation
call), a cache reader — which takes no lock — observes NL version 1
together with compiled-policy version 0: the mutex does not prevent a
reader from seeing the NL file updated while the compiled policy still
reflects the previous version. -/
theorem C8_counterexample :
    (wrun writerReaderSys [0, 0]).owner = some 0 ∧
    (wrun writerReaderSys [0, 0]).nlFile = 1 ∧
    (wrun writerReaderSys [0, 0]).regoFile = 0 ∧
    ((wrun writerReaderSys [0, 0, 1, 1]).tasks.getD 1 ⟨[], []⟩).obs = [1, 0] := by
  decide

/-- One step of the write-coordinator model preserves the two-writer
reachability invariant. -/
theorem winv_step (s : WSys) (i : Nat) (h : WInv s) : WInv ((wstep s i).getD s) := by
  rcases s with ⟨tasks, owner, nl, rg⟩
  rcases tasks with _ | ⟨⟨p0, o0⟩, _ | ⟨⟨p1, o1⟩, _ | ⟨t2, rest⟩⟩⟩
  · simp [WInv] at h
  · simp [WInv] at h
  · simp only [WInv] at h
    obtain ⟨hm0, hm1, ho0, ho1, hiff0, hiff1, hown⟩ := h
    subst ho0; subst ho1
    simp only [nl_update_suffixes, List.mem_cons, List.not_mem_nil, or_false] at hm0 hm1
    rcases hm0 with rfl | rfl | rfl | rfl | rfl | rfl <;>
      rcases hm1 with rfl | rfl | rfl | rfl | rfl | rfl <;>
      rcases hown with rfl | rfl | rfl <;>
      rcases i with _ | _ | i <;>
      simp_all [wstep, WInv, nl_update_suffixes, mid_update, nl_update_prog]
  · simp [WInv] at h

/-- The two-writer invariant holds in every reachable state. -/
theorem winv_run (sched : List Nat) : WInv (wrun twoWriterSys sched) := by
  have h0 : WInv twoWriterSys := by
    simp [WInv, twoWriterSys, nl_update_suffixes, mid_update]
  suffices h : ∀ (sched : List Nat) (s : WSys), WInv s → WInv (wrun s sched) from
    h sched _ h0
  intro sched
  induction sched with
  | nil => exact fun s hs => hs
  | cons i rest ih => exact fun s hs => ih _ (winv_step s i hs)

/-- Extracting the mutual-exclusion consequences of the invariant. -/
theorem winv_mutex (s : WSys) (h : WInv s) :
    (s.owner = some 0 ↔ mid_update 1 (s.tasks.getD 0 ⟨[], []⟩).prog = true) ∧
    (s.owner = some 1 ↔ mid_update 2 (s.tasks.getD 1 ⟨[], []⟩).prog = true) ∧
    ¬(mid_update 1 (s.tasks.getD 0 ⟨[], []⟩).prog = true ∧
      mid_update 2 (s.tasks.getD 1 ⟨[], []⟩).prog = true) := by
  rcases s with ⟨tasks, owner, nl, rg⟩
  rcases tasks with _ | ⟨t0, _ | ⟨t1, _ | ⟨t2, rest⟩⟩⟩
  · simp [WInv] at h
  · simp [WInv] at h
  · simp only [WInv] at h
    obtain ⟨hm0, hm1, ho0, ho1, hiff0, hiff1, hown⟩ := h
    refine ⟨by simpa using hiff0, by simpa using hiff1, ?_⟩
    rintro ⟨h1, h2⟩
    have e1 := hiff0.mpr (by simpa using h1)
    have e2 := hiff1.mpr (by simpa using h2)
    rw [e1] at e2
    exact absurd e2 (by simp)
  · simp [WInv] at h

/-- C8 (amended).  The composite NL-policy update holds the per-tenant
write mutex for its entire duration: in every schedule of two concurrent
composite updates, the mutex owner is exactly the mid-update task, and
never are both updates between their `acquire` and `release` — so no
other lock-acquiring administrative operation interleaves between the NL
save and the compiled-policy save.  (A cache reader, which takes no lock,
can still observe the mixed state: see the counterexample.) -/
theorem C8_composite_update_mutex :
    (∀ sched : List Nat,
      ¬(mid_update 1 ((wrun twoWriterSys sched).tasks.getD 0 ⟨[], []⟩).prog = true ∧
        mid_update 2 ((wrun twoWriterSys sched).tasks.getD 1 ⟨[], []⟩).prog = true)) ∧
    (∀ sched : List Nat, (wrun twoWriterSys sched).owner = some 0 ↔
        mid_update 1 ((wrun twoWriterSys sched).tasks.getD 0 ⟨[], []⟩).prog = true) ∧
    (∀ sched : List Nat, (wrun twoWriterSys sched).owner = some 1 ↔
        mid_update 2 ((wrun twoWriterSys sched).tasks.getD 1 ⟨[], []⟩).prog = true) :=
  ⟨fun sched => (winv_mutex _ (winv_run sched)).2.2,
   fun sched => (winv_mutex _ (winv_run sched)).1,
   fun sched => (winv_mutex _ (winv_run sched)).2.1⟩

/-- One step of the population model preserves `CInv`. -/
theorem cinv_step (s : CSys) (i : Nat) (h : CInv s) : CInv ((cstep s i).getD s) := by
  rcases hget : s.tasks[i]? with _ | t
  · simpa [cstep, hget] using h
  · rcases hph : t.phase
    case start =>
      by_cases hc : t.pid ∈ s.cachePids <;>
        simpa [cstep, hget, hph, hc, CInv, readCount] using h
    case wantLock =>
      by_cases hl : (s.locks.lookup t.pid).isSome <;>
        simpa [cstep, hget, hph, hl, CInv, readCount] using h
    case done => simpa [cstep, hget, hph] using h
    case locked =>
      by_cases hc : t.pid ∈ s.cachePids
      · simpa [cstep, hget, hph, hc, CInv, readCount] using h
      · have hcb : s.cachePids.contains t.pid = false := by simpa using hc
        have h0 : readCount s t.pid = 0 := (h t.pid).2 hc
        intro p
        simp only [cstep, hget, hph, hcb, Bool.false_eq_true, if_false, Option.getD_some]
        by_cases hpe : p = t.pid
        · subst hpe
          refine ⟨fun _ => ?_, fun hmem => absurd (List.mem_cons_self _ _) hmem⟩
          simp only [readCount, List.filter_cons] at h0 ⊢
          simp [h0]
        · have hne : ¬(t.pid = p) := fun hh => hpe hh.symm
          refine ⟨fun hmem => ?_, fun hmem => ?_⟩
          · have hp : p ∈ s.cachePids := by
              rcases List.mem_cons.mp hmem with h' | h'
              · exact absurd h' hpe
              · exact h'
            simpa [readCount, List.filter_cons, hne] using (h p).1 hp
          · have hp : p ∉ s.cachePids := fun hx => hmem (List.mem_cons_of_mem _ hx)
            simpa [readCount, List.filter_cons, hne] using (h p).2 hp

/-- `CInv` holds in every state reachable from a cold cache. -/
theorem cinv_run (pids : List String) (sched : List Nat) :
    CInv (crun (coldSys pids) sched) := by
  have h0 : CInv (coldSys pids) := by
    intro p
    simp [coldSys, readCount]
  suffices h : ∀ (sched : List Nat) (s : CSys), CInv s → CInv (crun s sched) from
    h sched _ h0
  intro sched
  induction sched with
  | nil => exact fun s hs => hs
  | cons i rest ih => exact fun s hs => ih _ (cinv_step s i hs)

/-- C9.  Under any number of concurrent first-time gets (for arbitrarily
mixed tenants, scheduled arbitrarily) the artifact-store file of each
tenant is read at most once; a get is blocked only in its lock-wait phase
and only while its own tenant's file lock is held; and no step of a task
for a different tenant ever changes the lock another tenant's gets wait
on — so gets for other tenants are never blocked by an in-flight load. -/
theorem C9_single_population_nonblocking :
    (∀ (pids : List String) (sched : List Nat) (p : String),
      readCount (crun (coldSys pids) sched) p ≤ 1) ∧
    (∀ (s : CSys) (i : Nat) (t : GetTask), s.tasks[i]? = some t →
      t.phase = .wantLock →
      (cstep s i = none ↔ (s.locks.lookup t.pid).isSome = true)) ∧
    (∀ (s : CSys) (i : Nat) (t : GetTask), s.tasks[i]? = some t →
      t.phase = .start ∨ t.phase = .locked → cstep s i ≠ none) ∧
    (∀ (s : CSys) (i : Nat) (t : GetTask) (q : String), s.tasks[i]? = some t →
      t.pid ≠ q → ((cstep s i).getD s).locks.lookup q = s.locks.lookup q) := by
  refine ⟨?_, ?_, ?_, ?_⟩
  · intro pids sched p
    have h := cinv_run pids sched p
    by_cases hp : p ∈ (crun (coldSys pids) sched).cachePids
    · exact h.1 hp
    · rw [h.2 hp]; omega
  · intro s i t hget hph
    constructor
    · intro hnone
      by_contra hl
      simp [cstep, hget, hph, hl] at hnone
    · intro hl
      simp [cstep, hget, hph, hl]
  · intro s i t hget hph
    rcases hph with hph | hph
    · by_cases hc : t.pid ∈ s.cachePids <;> simp [cstep, hget, hph, hc]
    · by_cases hc : t.pid ∈ s.cachePids <;> simp [cstep, hget, hph, hc]
  · intro s i t q hget hne
    have hqe : q ≠ t.pid := fun hh => hne hh.symm
    rcases hph : t.phase
    case start =>
      by_cases hc : t.pid ∈ s.cachePids <;> simp [cstep, hget, hph, hc]
    case wantLock =>
      by_cases hl : (s.locks.lookup t.pid).isSome
      · simp [cstep, hget, hph, hl]
      · have : (q == t.pid) = false := by simp [hqe]
        simp [cstep, hget, hph, hl, List.lookup, this]
    case locked =>
      have hl := lookup_filter_ne s.locks t.pid q hqe
      by_cases hc : t.pid ∈ s.cachePids <;> simp [cstep, hget, hph, hc] <;>
        simpa using hl
    case done => simp [cstep, hget, hph]
